import Mathlib

/-!
Verification of the script in src/data-view-render.js.

Shallow embedding of the catalog loader and incremental renderer.  The
JavaScript is single-threaded and event-driven; its pure helpers become Lean
functions on `String`/`List Char`, its numeric pipeline (`Number`,
`toFixed`) is modelled with exact decimal rationals (`Dec`, an integer
numerator over a power-of-ten denominator) standing for the decimal values
the IEEE-754 doubles denote — faithful on the decimal magnitudes the script
manipulates, with the binary double-rounding of extreme literals out of
scope — and the renderer's module-level mutable state becomes an explicit
state record with a step function over page events.  DOM failures
(dereferencing an undefined variable) are modelled with `Except`.
-/

namespace DataViewRender

/-! JavaScript string primitives -/

/-- The character class matched by JavaScript `\s` and removed by
`String.prototype.trim` (whitespace plus line terminators). -/
def isJsWhitespace (c : Char) : Bool :=
  ([9, 10, 11, 12, 13, 32, 160, 0x1680, 0x2000, 0x2001, 0x2002, 0x2003,
    0x2004, 0x2005, 0x2006, 0x2007, 0x2008, 0x2009, 0x200a, 0x2028, 0x2029,
    0x202f, 0x205f, 0x3000, 0xfeff] : List Nat).contains c.toNat

/-- JavaScript trim() on a character list: drop leading and trailing whitespace. -/
def jsTrimList (cs : List Char) : List Char :=
  ((cs.dropWhile isJsWhitespace).reverse.dropWhile isJsWhitespace).reverse

/-- JavaScript `String.prototype.trim`. -/
def jsTrim (s : String) : String := ⟨jsTrimList s.data⟩

/-- The source's capitalize(word): empty string for a falsy input,
otherwise the first character uppercased (ASCII case mapping; the catalog
is ASCII) followed by the rest verbatim. -/
def capitalize (word : String) : String :=
  match word.data with
  | [] => ""
  | c :: rest => ⟨c.toUpper :: rest⟩

/-- JavaScript toLowerCase (ASCII case mapping suffices for the
catalog's category tokens). -/
def jsToLower (s : String) : String := ⟨s.data.map Char.toLower⟩

/-- Split at every occurrence of a single separator character, keeping
empty segments: JavaScript split(sep) for a one-character separator. -/
def splitOnCharAux (sep : Char) : List Char → List Char → List String
  | [], acc => [⟨acc.reverse⟩]
  | c :: rest, acc =>
    if c = sep then ⟨acc.reverse⟩ :: splitOnCharAux sep rest []
    else splitOnCharAux sep rest (c :: acc)

/-- See `splitOnCharAux`. -/
def splitOnChar (sep : Char) (s : String) : List String :=
  splitOnCharAux sep s.data []

/-! Exact decimal numbers

`Dec` represents `num / 10 ^ exp`.  Every value produced by the numeric
literal grammar is such a decimal rational, so the `Number`/`toFixed`
pipeline of the script can be modelled without losing exactness, and every
operation reduces to kernel-accelerated `Int`/`Nat` arithmetic. -/

/-- Binary exponentiation with explicit fuel, so that kernel reduction of a
power needs only logarithmically many steps (the library `^` on `Int`
unfolds one multiplication per unit of exponent). -/
def powAux : Nat → Int → Nat → Int
  | 0, _, _ => 1
  | fuel + 1, b, n =>
    if n = 0 then 1
    else
      let h := powAux fuel (b * b) (n / 2)
      if n % 2 = 1 then b * h else h

/-- Integer power, kernel-friendly. -/
def intPow (b : Int) (n : Nat) : Int := powAux n b n

/-- An exact decimal rational `num / 10 ^ exp`. -/
structure Dec where
  num : Int
  exp : Nat
deriving DecidableEq

namespace Dec

/-- Comparison of the represented values (denominators are positive). -/
def le (a b : Dec) : Bool :=
  a.num * intPow 10 b.exp ≤ b.num * intPow 10 a.exp

/-- Strict comparison of the represented values. -/
def lt (a b : Dec) : Bool :=
  a.num * intPow 10 b.exp < b.num * intPow 10 a.exp

/-- Negation. -/
def neg (a : Dec) : Dec := ⟨-a.num, a.exp⟩

/-- Is the represented value negative? -/
def isNeg (a : Dec) : Bool := a.num < 0

/-- Floor of the represented value (`Int.fdiv` is floor division). -/
def floor (a : Dec) : Int := Int.fdiv a.num (intPow 10 a.exp)

end Dec

/-! The JavaScript Number(string) conversion

`formatPrice` feeds the stripped price text to `Number`.  We model the
ECMAScript `StringNumericLiteral` grammar exactly (empty/whitespace-only
string is `0`; signed decimal with optional fraction and exponent;
`Infinity`; unsigned `0x`/`0o`/`0b` literals; anything else is `NaN`,
encoded as `none`).  Magnitudes at or beyond `2^1024` overflow to an
infinity as doubles do (the half-ulp rounding at the exact overflow
boundary is not modelled). -/

/-- A JavaScript number that is not `NaN`: a finite value or a signed
infinity. -/
inductive JSNum where
  | fin (d : Dec)
  | inf (neg : Bool)
deriving DecidableEq

/-- Magnitudes reaching `2^1024` become `Infinity` / `-Infinity`. -/
def overflowCheck (d : Dec) : JSNum :=
  if Dec.le ⟨intPow 2 1024, 0⟩ d then .inf false
  else if Dec.le d ⟨-intPow 2 1024, 0⟩ then .inf true
  else .fin d

/-- Numeric value of a decimal digit string (most significant first). -/
def digitsVal (ds : List Char) : Nat :=
  ds.foldl (fun a c => a * 10 + (c.toNat - 48)) 0

/-- Value of `ip . frac × 10 ^ e` as an exact decimal. -/
def decValue (ip : Nat) (frac : List Char) (e : Int) : Dec :=
  let len := frac.length
  let M : Int := (ip : Int) * intPow 10 len + (digitsVal frac : Int)
  if 0 ≤ e then ⟨M * intPow 10 e.toNat, len⟩ else ⟨M, len + (-e).toNat⟩

/-- Parse the optional exponent part (`e`/`E`, optional sign, digits); the
whole remaining input must be consumed.  `none` means the literal is
malformed (`NaN`). -/
def parseExpOpt : List Char → Option Int
  | [] => some 0
  | c :: rest =>
    if c = 'e' ∨ c = 'E' then
      match rest with
      | '+' :: ds =>
        if ds ≠ [] ∧ ds.all Char.isDigit then some (digitsVal ds) else none
      | '-' :: ds =>
        if ds ≠ [] ∧ ds.all Char.isDigit then some (-(digitsVal ds : Int)) else none
      | ds =>
        if ds ≠ [] ∧ ds.all Char.isDigit then some (digitsVal ds) else none
    else none

/-- Parse an unsigned decimal literal (`digits [. digits] [exp]` or
`. digits [exp]`), consuming the whole input. -/
def parseDecMag (cs : List Char) : Option Dec :=
  let ds := cs.takeWhile Char.isDigit
  let rest := cs.drop ds.length
  if ds.isEmpty then
    match rest with
    | '.' :: r2 =>
      let fr := r2.takeWhile Char.isDigit
      let r3 := r2.drop fr.length
      if fr.isEmpty then none
      else (parseExpOpt r3).map (decValue 0 fr)
    | _ => none
  else
    match rest with
    | '.' :: r2 =>
      let fr := r2.takeWhile Char.isDigit
      let r3 := r2.drop fr.length
      (parseExpOpt r3).map (decValue (digitsVal ds) fr)
    | r2 => (parseExpOpt r2).map (decValue (digitsVal ds) [])

/-- Parse a signed decimal literal or a signed `Infinity`. -/
def parseSignedDec (cs : List Char) : Option JSNum :=
  let sgn : Bool × List Char :=
    match cs with
    | '+' :: r => (false, r)
    | '-' :: r => (true, r)
    | r => (false, r)
  if sgn.2 = ['I', 'n', 'f', 'i', 'n', 'i', 't', 'y'] then some (.inf sgn.1)
  else (parseDecMag sgn.2).map fun d => overflowCheck (if sgn.1 then Dec.neg d else d)

/-- Value of a character as a digit in bases up to 36 (`99` when it is not
a digit at all, which every base test rejects). -/
def radixDigit (c : Char) : Nat :=
  if '0' ≤ c ∧ c ≤ '9' then c.toNat - 48
  else if 'a' ≤ c ∧ c ≤ 'z' then c.toNat - 87
  else if 'A' ≤ c ∧ c ≤ 'Z' then c.toNat - 55
  else 99

/-- Parse the digits of a `0x`/`0o`/`0b` literal in base `b`. -/
def parseRadix (b : Nat) (ds : List Char) : Option JSNum :=
  if ds ≠ [] ∧ ds.all (fun c => radixDigit c < b) then
    some (overflowCheck ⟨(ds.foldl (fun a c => a * b + radixDigit c) 0 : Nat), 0⟩)
  else none

/-- Parse a non-empty trimmed numeric literal. -/
def parseNumeric (cs : List Char) : Option JSNum :=
  match cs with
  | '0' :: c :: rest =>
    if c = 'x' ∨ c = 'X' then parseRadix 16 rest
    else if c = 'o' ∨ c = 'O' then parseRadix 8 rest
    else if c = 'b' ∨ c = 'B' then parseRadix 2 rest
    else parseSignedDec ('0' :: c :: rest)
  | _ => parseSignedDec cs

/-- JavaScript `Number(s)` for a string argument: trim, then an empty
remainder is `0`, otherwise the numeric-literal grammar decides; `none`
is `NaN`. -/
def jsNumber (s : String) : Option JSNum :=
  match jsTrimList s.data with
  | [] => some (.fin ⟨0, 0⟩)
  | cs => parseNumeric cs

/-! JavaScript toFixed(2) and the source's formatPrice

`toFixed(2)` rounds to the nearest hundredth (ties toward larger
magnitude after the sign is split off) and prints `<int>.<2 digits>`,
except that magnitudes at or beyond `10^21` fall back to the plain
`ToString` conversion, which at such magnitudes uses exponent notation. -/

/-- The two decimal digits of `n % 100`, zero padded. -/
def pad2 (n : Nat) : String :=
  ⟨[Nat.digitChar (n / 10 % 10), Nat.digitChar (n % 10)]⟩

/-- Floor of d * 100 + 1/2 for a non-negative decimal `d`: the integer whose
hundredths `toFixed(2)` prints (nearest, ties up). -/
def fixed2Nat (d : Dec) : Nat :=
  (Int.fdiv (d.num * 200 + intPow 10 d.exp) (2 * intPow 10 d.exp)).toNat

/-- The decimal branch of `toFixed(2)` for a non-negative value below
`10^21`. -/
def toFixed2Pos (d : Dec) : String :=
  let n := fixed2Nat d
  Nat.repr (n / 100) ++ "." ++ pad2 (n % 100)

/-- Remove trailing decimal zeros: `stripZeros n = (s, z)` with
`n = s * 10^z` and `s` not divisible by 10 (for `n ≠ 0`).  The fuel is the
number itself, which bounds the count of removable digits. -/
def stripZerosAux : Nat → Nat → Nat × Nat
  | 0, n => (n, 0)
  | fuel + 1, n =>
    if n ≠ 0 ∧ n % 10 = 0 then
      let p := stripZerosAux fuel (n / 10)
      (p.1, p.2 + 1)
    else (n, 0)

/-- See `stripZerosAux`. -/
def stripZeros (n : Nat) : Nat × Nat := stripZerosAux n n

/-- ECMAScript `ToString` of a positive finite number: with `s` the digit
string of the value without trailing zeros and `n` the position of the
decimal point, print plain digits, a fixed-point fraction, or exponent
notation according to where `n` falls.  (`toFixed` reaches this only for
magnitudes at or beyond `10^21`, where the exponent branch fires.) -/
def jsToStringPos (d : Dec) : String :=
  let sz := stripZeros d.num.toNat
  let digits := Nat.repr sz.1
  let kd := digits.length
  let n : Int := (kd : Int) + (sz.2 : Int) - (d.exp : Int)
  if (kd : Int) ≤ n ∧ n ≤ 21 then
    digits ++ ⟨List.replicate (n - kd).toNat '0'⟩
  else if 0 < n ∧ n ≤ 21 then
    ⟨digits.data.take n.toNat⟩ ++ "." ++ ⟨digits.data.drop n.toNat⟩
  else if -6 < n ∧ n ≤ 0 then
    "0." ++ ⟨List.replicate (-n).toNat '0'⟩ ++ digits
  else
    let mantissa :=
      if kd = 1 then digits
      else ⟨digits.data.take 1⟩ ++ "." ++ ⟨digits.data.drop 1⟩
    if 0 < n then mantissa ++ "e+" ++ Nat.repr (n - 1).toNat
    else mantissa ++ "e-" ++ Nat.repr (1 - n).toNat

/-- The magnitude bound `10^21` at which `toFixed` abandons fixed-point
output. -/
def tenPow21 : Dec := ⟨intPow 10 21, 0⟩

/-- JavaScript toFixed(2): split off the sign, then either the `ToString`
fallback (≥ `10^21`) or nearest-hundredth fixed-point output. -/
def toFixed2 (x : Dec) : String :=
  let sgn := if Dec.isNeg x then "-" else ""
  let q := if Dec.isNeg x then Dec.neg x else x
  if Dec.le tenPow21 q then sgn ++ jsToStringPos q
  else sgn ++ toFixed2Pos q

/-- The stripping step of `formatPrice`: remove every `$` and `,`, then
trim surrounding whitespace. -/
def stripPrice (raw : String) : String :=
  jsTrim ⟨(raw.data.filter (fun c => c ≠ '$')).filter (fun c => c ≠ ',')⟩

/-- The source's formatPrice(raw): `null`/`undefined` (`none`) gives
`"$0.00"`; otherwise strip `$`/`,`/whitespace, convert with `Number`, and
print `"$" ++ toFixed(2)` for a finite value or `"$" ++ stripped` when the
conversion is `NaN` or an infinity. -/
def formatPrice : Option String → String
  | none => "$0.00"
  | some raw =>
    let s := stripPrice raw
    match jsNumber s with
    | some (.fin d) => "$" ++ toFixed2 d
    | _ => "$" ++ s

/-! The affiliate-link rewrite

The source builds `new URL(link)`, forces the `ref` search parameter to
the literal `100201678`, and serializes; a parse failure returns the link
unchanged.  The WHATWG URL machinery is a host builtin, so we model the
fragment of it the catalog links exercise: absolute `http`/`https` URLs
written in lower-case scheme and host, with path, query and fragment
characters drawn from sets that the WHATWG serializer emits verbatim
(so parsing and serializing are mutually inverse on the model's domain).
Inputs outside this fragment are treated as parse failures. -/

/-- A character allowed in the model's host component. -/
def isHostChar (c : Char) : Bool :=
  c.isLower ∨ c.isDigit ∨ c = '.' ∨ c = '-' ∨ c = ':'

/-- A character the WHATWG path serializer emits verbatim. -/
def isPathChar (c : Char) : Bool :=
  c.isAlphanum ∨ c = '/' ∨ c = '-' ∨ c = '.' ∨ c = '_' ∨ c = '~'

/-- A character the form-urlencoded serializer emits verbatim, hence
allowed in parameter keys and values of the model. -/
def formSafeChar (c : Char) : Bool :=
  c.isAlphanum ∨ c = '*' ∨ c = '-' ∨ c = '.' ∨ c = '_'

/-- A character allowed in the model's fragment. -/
def isFragChar (c : Char) : Bool :=
  c.isAlphanum ∨ c = '-' ∨ c = '.' ∨ c = '_' ∨ c = '~' ∨ c = '/'

/-- A parsed absolute URL. -/
structure URLRec where
  scheme : String
  host : String
  path : String
  params : List (String × String)
  fragment : Option String
deriving DecidableEq

/-- Parse one `key` or `key=value` piece of a query string; `none` when a
character would need percent-encoding (outside the model's domain). -/
def parsePiece (piece : String) : Option (String × String) :=
  let k := piece.data.takeWhile (fun c => c ≠ '=')
  let rest := piece.data.drop k.length
  if k.all formSafeChar then
    match rest with
    | [] => some (⟨k⟩, "")
    | '=' :: v => if v.all formSafeChar then some (⟨k⟩, ⟨v⟩) else none
    | _ => none
  else none

/-- Parse a query string into its parameter list, URLSearchParams-style:
split on ampersands, drop empty pieces, split each piece at its first
equals sign. -/
def parseQuery (q : String) : Option (List (String × String)) :=
  ((splitOnChar '&' q).filter (fun p => p ≠ "")).mapM parsePiece

/-- Parse an absolute URL within the model's domain (see the section
comment); `none` plays the role of the `TypeError` thrown by `new URL`. -/
def parseURL (s : String) : Option URLRec :=
  let cs := s.data
  let afterScheme : Option (String × List Char) :=
    if cs.take 8 = "https://".data then some ("https", cs.drop 8)
    else if cs.take 7 = "http://".data then some ("http", cs.drop 7)
    else none
  match afterScheme with
  | none => none
  | some (scheme, r1) =>
    let hostCs := r1.takeWhile (fun c => c ≠ '/' ∧ c ≠ '?' ∧ c ≠ '#')
    let r2 := r1.drop hostCs.length
    if hostCs.isEmpty ∨ ¬ hostCs.all isHostChar then none
    else
      let pathCs := r2.takeWhile (fun c => c ≠ '?' ∧ c ≠ '#')
      let r3 := r2.drop pathCs.length
      if ¬ pathCs.all isPathChar then none
      else
        let path : String := if pathCs.isEmpty then "/" else ⟨pathCs⟩
        match r3 with
        | [] => some ⟨scheme, ⟨hostCs⟩, path, [], none⟩
        | '?' :: r4 =>
          let qCs := r4.takeWhile (fun c => c ≠ '#')
          let r5 := r4.drop qCs.length
          match parseQuery ⟨qCs⟩ with
          | none => none
          | some params =>
            match r5 with
            | [] => some ⟨scheme, ⟨hostCs⟩, path, params, none⟩
            | '#' :: fr =>
              if fr.all isFragChar then some ⟨scheme, ⟨hostCs⟩, path, params, some ⟨fr⟩⟩
              else none
            | _ => none
        | '#' :: fr =>
          if fr.all isFragChar then some ⟨scheme, ⟨hostCs⟩, path, [], some ⟨fr⟩⟩
          else none
        | _ => none

/-- Remove every parameter with the given key. -/
def removeKey : List (String × String) → String → List (String × String)
  | [], _ => []
  | p :: rest, k => if p.1 = k then removeKey rest k else p :: removeKey rest k

/-- URLSearchParams.set: overwrite the first parameter with the key and
drop its other occurrences, keeping order; append when the key is absent. -/
def setParam : List (String × String) → String → String → List (String × String)
  | [], k, v => [(k, v)]
  | p :: rest, k, v =>
    if p.1 = k then (k, v) :: removeKey rest k
    else p :: setParam rest k v

/-- Serialize a parameter list form-urlencoded style. -/
def serializeParams (ps : List (String × String)) : String :=
  String.intercalate "&" (ps.map fun p => p.1 ++ "=" ++ p.2)

/-- Serialize a parsed URL back to a string. -/
def serializeURL (u : URLRec) : String :=
  u.scheme ++ "://" ++ u.host ++ u.path ++
    (if u.params.isEmpty then "" else "?" ++ serializeParams u.params) ++
    (match u.fragment with | none => "" | some f => "#" ++ f)

/-- The source's updateRef(link): force `ref=100201678` into a parseable
absolute URL, return anything else unchanged. -/
def updateRef (link : String) : String :=
  match parseURL link with
  | some u => serializeURL { u with params := setParam u.params "ref" "100201678" }
  | none => link

/-! The row micro-parser and the catalog loader -/

/-- First-match semantics of the source's regexes `\[([^\]]+)\]`,
`\(([^)]+)\)`, `\{([^}]+)\}` and `%([^%]+)%`: scan for the first opening
delimiter followed by a non-empty run of non-closing characters and then
the closing delimiter; on failure at one position the scan resumes at the
next. -/
def firstDelim (op cl : Char) : List Char → Option (List Char)
  | [] => none
  | c :: rest =>
    if c = op then
      let grab := rest.takeWhile (fun x => x ≠ cl)
      if grab ≠ [] ∧ rest.drop grab.length ≠ [] then some grab
      else firstDelim op cl rest
    else firstDelim op cl rest

/-- A parsed catalog record. -/
structure Record where
  id : Nat
  name : String
  link : String
  price : String
  category : String
  image : String
deriving DecidableEq

/-- The source's parseRow(line, index): split on TABs, reject rows with
fewer than three columns, extract the bracket/paren/brace/percent
segments from the trimmed first column, reject a missing or blank name,
rewrite a non-empty link, format the price, and number the record
`index + 1`. -/
def parseRow (line : String) (index : Nat) : Option Record :=
  let parts := splitOnChar '\t' line
  if parts.length < 3 then none
  else
    let col1 := jsTrim (parts.getD 0 "")
    let image := jsTrim (parts.getD 2 "")
    let name := jsTrim ⟨(firstDelim '[' ']' col1.data).getD []⟩
    let link0 := jsTrim ⟨(firstDelim '(' ')' col1.data).getD []⟩
    let priceRaw := jsTrim ⟨(firstDelim '\x7b' '\x7d' col1.data).getD []⟩
    let category := jsToLower (jsTrim ⟨(firstDelim '%' '%' col1.data).getD []⟩)
    if name = "" then none
    else
      some { id := index + 1
             name := name
             link := if link0 ≠ "" then updateRef link0 else link0
             price := formatPrice (some priceRaw)
             category := category
             image := image }

/-- Split on the regex `\r?\n`: a newline, optionally eating one carriage
return immediately before it; a lone carriage return is not a boundary. -/
def splitRNAux : List Char → List Char → List String
  | [], acc => [⟨acc.reverse⟩]
  | '\r' :: '\n' :: rest, acc => ⟨acc.reverse⟩ :: splitRNAux rest []
  | '\n' :: rest, acc => ⟨acc.reverse⟩ :: splitRNAux rest []
  | c :: rest, acc => splitRNAux rest (c :: acc)

/-- See `splitRNAux`. -/
def jsSplitRN (s : String) : List String := splitRNAux s.data []

/-- The header heuristic `/^\s*\[/.test(line)`. -/
def startsWithBracket (s : String) : Bool :=
  match s.data.dropWhile isJsWhitespace with
  | '[' :: _ => true
  | _ => false

/-- The accumulation loop of loadProducts: each line is parsed with the
current output length as its index; `null` rows are dropped. -/
def parseLoop : List String → List Record → List Record
  | [], acc => acc
  | l :: ls, acc =>
    match parseRow l acc.length with
    | some r => parseLoop ls (acc ++ [r])
    | none => parseLoop ls acc

/-- The pure body of loadProducts once the response text is in hand:
split into lines, drop blank lines, skip a header line unless the first
line starts (after optional whitespace) with an opening bracket, and run
the row parser over the rest. -/
def loadPure (text : String) : List Record :=
  let lines := (jsSplitRN text).filter (fun l => l ≠ "")
  match lines with
  | [] => []
  | first :: rest =>
    if startsWithBracket first then parseLoop (first :: rest) []
    else parseLoop rest []

/-- Outcome of the `fetch` call: a transport error (rejected promise) or
a response with its success flag and body text. -/
inductive FetchOutcome where
  | transportErr
  | response (ok : Bool) (body : String)
deriving DecidableEq

/-- loadProducts: a transport error propagates, a non-ok response throws
(`Failed to load gemini_products.csv`), and a successful body is parsed
purely. -/
def loadProducts : FetchOutcome → Except Unit (List Record)
  | .transportErr => .error ()
  | .response ok body => if ok then .ok (loadPure body) else .error ()

/-! The incremental renderer

The module-level variables `PRODUCTS`, `rendered`, `initialized`, `grid`
and `footerEl` become the fields of `RState`; `grid`/`footer` are `none`
while the corresponding variable is still `undefined`.  A card keeps the
data the template interpolates.  The `document` is abstracted to whether
the `data-view` container exists and carries the `hidden` class; the page
markup provides no pre-existing `main`/`footer` inside it, so
`initDataView` creates both. -/

/-- The data a rendered card displays. -/
structure Card where
  image : String
  name : String
  categoryLabel : String
  priceLabel : String
  buyLink : Option String
deriving DecidableEq

/-- The source's createCard(p): the category is capitalized for display,
the price and image are shown verbatim, and an empty link renders the
disabled affordance (`none`) instead of a Buy link. -/
def createCard (p : Record) : Card :=
  { image := p.image
    name := p.name
    categoryLabel := capitalize p.category
    priceLabel := p.price
    buyLink := if p.link ≠ "" then some p.link else none }

/-- Comma-group a reversed digit string (en-US `toLocaleString`). -/
def commaRevAux : List Char → Nat → List Char
  | [], _ => []
  | c :: rest, k =>
    if k = 3 then ',' :: c :: commaRevAux rest 1
    else c :: commaRevAux rest (k + 1)

/-- JavaScript `toLocaleString()` on a natural number under the default
en-US locale: thousands separated by commas. -/
def jsLocaleNat (n : Nat) : String :=
  ⟨(commaRevAux (Nat.repr n).data.reverse 0).reverse⟩

/-- The status line written by renderMore. -/
def footerText (r n : Nat) : String :=
  "Displaying " ++ jsLocaleNat r ++ " of " ++ jsLocaleNat n ++ " total items."

/-- The renderer's state: the two module-level data variables, the
initialization latch, the lazily created DOM handles, the host page's
`data-view` container status, and whether a `setTimeout(initDataView, 50)`
is pending. -/
structure RState where
  products : List Record
  rendered : Nat
  initialized : Bool
  grid : Option (List Card)
  footer : Option (Option String)
  dataViewPresent : Bool
  dataViewHidden : Bool
  pendingInit : Bool
deriving DecidableEq

/-- The source's renderMore(): return early when everything is rendered
(`PRODUCTS` itself is never nullish: it is declared as `[]`), otherwise
append a card for each record in `[rendered, min(rendered+24, N))` —
dereferencing `grid`, a `TypeError` (`error`) when it is still undefined —
advance the cursor, and update the footer when `footerEl` is set. -/
def renderMore (st : RState) : Except Unit RState :=
  if st.products.length ≤ st.rendered then .ok st
  else
    match st.grid with
    | none => .error ()
    | some g =>
      let endIdx := min (st.rendered + 24) st.products.length
      let newCards := ((st.products.drop st.rendered).take (endIdx - st.rendered)).map createCard
      let st1 := { st with grid := some (g ++ newCards), rendered := endIdx }
      match st.footer with
      | some _ => .ok { st1 with footer := some (some (footerText endIdx st.products.length)) }
      | none => .ok st1

/-- The source's initDataView(): latched by `initialized`; requires the
`data-view` container; creates a fresh grid (clearing any content) and a
footer, renders the first batch, then sets the latch. -/
def initDataView (st : RState) : Except Unit RState :=
  if st.initialized then .ok st
  else if ¬ st.dataViewPresent then .ok st
  else
    match renderMore { st with grid := some [], footer := some none } with
    | .ok st2 => .ok { st2 with initialized := true }
    | .error e => .error e

/-- The source's onScroll(): nothing happens unless the `data-view`
container exists and is not hidden; `near` is the outcome of the
`nearBottom()` proximity predicate (scroll geometry is not modelled). -/
def onScroll (near : Bool) (st : RState) : Except Unit RState :=
  if ¬ st.dataViewPresent then .ok st
  else if st.dataViewHidden then .ok st
  else if near then renderMore st
  else .ok st

/-- Page events driving the renderer.  `navigate` carries the visibility
the host page's own handler gives the `data-view` container; `timerFire`
is the delayed `initDataView` call firing; `loadFinish` is the page-load
handler completing with its fetch outcome. -/
inductive Ev where
  | navigate (page : String) (newHidden : Bool)
  | timerFire
  | scroll (near : Bool)
  | loadFinish (outcome : FetchOutcome)
deriving DecidableEq

/-- The wrapped `window.navigate`: the original handler adjusts the
view's visibility; navigating to `data` schedules the delayed
initialization. -/
def navigateStep (page : String) (newHidden : Bool) (st : RState) : Except Unit RState :=
  let st1 := { st with dataViewHidden := newHidden }
  if page = "data" then .ok { st1 with pendingInit := true } else .ok st1

/-- A pending `setTimeout(initDataView, 50)` firing. -/
def timerStep (st : RState) : Except Unit RState :=
  if st.pendingInit then initDataView { st with pendingInit := false } else .ok st

/-- The load handler: store the parsed catalog, or log and substitute an
empty list on failure; then initialize immediately when the view is
already visible. -/
def loadStep (outcome : FetchOutcome) (st : RState) : Except Unit RState :=
  let prods := match loadProducts outcome with
    | .ok ps => ps
    | .error _ => []
  let st1 := { st with products := prods }
  if st1.dataViewPresent ∧ ¬ st1.dataViewHidden then initDataView st1 else .ok st1

/-- One event step. -/
def step : Ev → RState → Except Unit RState
  | .navigate pg hid => navigateStep pg hid
  | .timerFire => timerStep
  | .scroll near => onScroll near
  | .loadFinish oc => loadStep oc

/-- Run a sequence of events; an uncaught exception aborts the run. -/
def run : List Ev → RState → Except Unit RState
  | [], st => .ok st
  | ev :: evs, st =>
    match step ev st with
    | .ok st' => run evs st'
    | .error e => .error e

/-- The module state as the script leaves it at page load: no products,
cursor zero, latch clear, DOM handles undefined; the host markup has the
`data-view` container present but hidden. -/
def initialState : RState :=
  { products := []
    rendered := 0
    initialized := false
    grid := none
    footer := none
    dataViewPresent := true
    dataViewHidden := true
    pendingInit := false }

/-- Iterate renderMore. -/
def renderTimes : Nat → RState → Except Unit RState
  | 0, st => .ok st
  | n + 1, st =>
    match renderMore st with
    | .ok st' => renderTimes n st'
    | .error e => .error e

/-! Auxiliary notions used by the statements below -/

/-- A string ending in a dot followed by exactly two decimal digits. -/
def twoDecimalShape (s : String) : Prop :=
  ∃ pre d1 d2, s.data = pre ++ ['.', d1, d2] ∧ d1.isDigit = true ∧ d2.isDigit = true

/-- Value of the first query parameter with the given key. -/
def getParam (ps : List (String × String)) (k : String) : Option String :=
  (ps.find? (fun p => p.1 == k)).map (fun p => p.2)

/-- A minimal record for exercising the renderer. -/
def demoRecord (i : Nat) : Record :=
  { id := i + 1, name := "p", link := "", price := "$0.00", category := "", image := "" }

/-- An initialized renderer over a 50-record catalog with nothing rendered
yet: the configuration of the specification's pagination example. -/
def state50 : RState :=
  { products := (List.range 50).map demoRecord
    rendered := 0
    initialized := true
    grid := some []
    footer := some none
    dataViewPresent := true
    dataViewHidden := false
    pendingInit := false }

/-- The fields of the state the load handler can encounter: nothing
rendered and the DOM handles at most created empty. -/
def preLoadInv (st : RState) : Prop :=
  st.rendered = 0 ∧ (st.grid = none ∨ st.grid = some []) ∧
    (st.footer = none ∨ st.footer = some none)

/-- After a failed load: empty catalog, zero cards, footer text never
written. -/
def emptyCatalogInv (st : RState) : Prop :=
  st.products = [] ∧ preLoadInv st

/-! Helper lemmas -/

set_option maxRecDepth 10000

theorem digitChar_isDigit {k : Nat} (h : k < 10) : (Nat.digitChar k).isDigit = true := by
  interval_cases k <;> decide

theorem toFixed2Pos_shape (d : Dec) : twoDecimalShape (toFixed2Pos d) := by
  refine ⟨(Nat.repr (fixed2Nat d / 100)).data,
    Nat.digitChar (fixed2Nat d % 100 / 10 % 10), Nat.digitChar (fixed2Nat d % 100 % 10),
    ?_, digitChar_isDigit (by omega), digitChar_isDigit (by omega)⟩
  simp [toFixed2Pos, pad2, String.data_append]

theorem toFixed2_shape (d : Dec)
    (h : Dec.le tenPow21 (if Dec.isNeg d then Dec.neg d else d) = false) :
    twoDecimalShape (toFixed2 d) := by
  obtain ⟨pre, d1, d2, hdata, h1, h2⟩ :=
    toFixed2Pos_shape (if Dec.isNeg d then Dec.neg d else d)
  refine ⟨(if Dec.isNeg d then "-" else "").data ++ pre, d1, d2, ?_, h1, h2⟩
  simp only [toFixed2, h, Bool.false_eq_true, if_false, String.data_append, hdata,
    List.append_assoc]

/-! Claim theorems -/

/-- C1 (counterexample): at the empty raw price — whose stripped content
is the empty string — formatPrice returns `"$0.00"`, not the bare `"$"`
the claim demands, because JavaScript `Number("")` is `0`. -/
theorem c1_empty_price_counterexample :
    formatPrice (some "") = "$0.00" ∧ formatPrice (some "") ≠ "$" := by
  decide

/-- C1 (amended): for every raw price string whose content after
stripping all `$` and `,` characters and surrounding whitespace does not
parse as a number, formatPrice returns `"$"` concatenated with the
stripped string verbatim (e.g. `"N/A"` yields `"$N/A"`), while a null or
undefined raw input yields exactly `"$0.00"`.  (The empty stripped
string, contrary to the original claim, parses as the number `0` and
yields `"$0.00"`.) -/
theorem c1_nan_fallback :
    (∀ raw, jsNumber (stripPrice raw) = none →
      formatPrice (some raw) = "$" ++ stripPrice raw) ∧
    formatPrice none = "$0.00" := by
  constructor
  · intro raw h
    simp [formatPrice, h]
  · decide

/-- C1 witness: the fallback at the concrete non-numeric price `"N/A"`. -/
theorem c1_nan_fallback_witness :
    formatPrice (some "N/A") = "$" ++ stripPrice "N/A" ∧ "$" ++ stripPrice "N/A" = "$N/A" :=
  ⟨c1_nan_fallback.1 "N/A" (by decide), by decide⟩

/-- C5 (counterexample): the raw price `"1e21"` strips to itself and
parses as the finite number `10^21`, but `toFixed(2)` falls back to
exponent notation at that magnitude, so formatPrice yields `"$1e+21"`
rather than `"$"` followed by a two-decimal rendering. -/
theorem c5_exponent_counterexample :
    formatPrice (some "1e21") = "$1e+21" ∧
      formatPrice (some "1e21") ≠ "$1000000000000000000000.00" := by
  decide

/-- C5 (amended): for every raw price string whose content after
stripping `$`/`,`/whitespace parses as a finite number of magnitude
below `10^21`, formatPrice returns `"$"` followed by that number
formatted with exactly two decimal digits; e.g. raw `"1,234.5"` yields
`"$1234.50"`.  (At or above `10^21`, `toFixed` switches to exponent
notation.) -/
theorem c5_two_decimal_format :
    (∀ raw d, jsNumber (stripPrice raw) = some (.fin d) →
      Dec.le tenPow21 (if Dec.isNeg d then Dec.neg d else d) = false →
      formatPrice (some raw) = "$" ++ toFixed2 d ∧ twoDecimalShape (toFixed2 d)) ∧
    formatPrice (some "1,234.5") = "$1234.50" := by
  constructor
  · intro raw d h hb
    exact ⟨by simp [formatPrice, h], toFixed2_shape d hb⟩
  · decide

/-- C5 witness: the two-decimal path at the concrete raw price
`"1,234.5"`, which parses to `12345/10`. -/
theorem c5_two_decimal_format_witness :
    formatPrice (some "1,234.5") = "$" ++ toFixed2 ⟨12345, 1⟩ ∧
      twoDecimalShape (toFixed2 ⟨12345, 1⟩) :=
  c5_two_decimal_format.1 "1,234.5" ⟨12345, 1⟩ (by decide) (by decide)

theorem parseRow_id {line : String} {i : Nat} {r : Record}
    (h : parseRow line i = some r) : r.id = i + 1 := by
  simp only [parseRow] at h
  split at h
  · exact absurd h (by simp)
  · split at h
    · exact absurd h (by simp)
    · rw [Option.some.injEq] at h
      subst h
      rfl

theorem parseLoop_ids : ∀ (ls : List String) (acc : List Record),
    acc.map (fun r => r.id) = List.range' 1 acc.length →
    (parseLoop ls acc).map (fun r => r.id) = List.range' 1 (parseLoop ls acc).length := by
  intro ls
  induction ls with
  | nil => intro acc h; simpa [parseLoop] using h
  | cons l ls ih =>
    intro acc h
    simp only [parseLoop]
    cases hr : parseRow l acc.length with
    | none => exact ih acc h
    | some r =>
      apply ih
      have hid : r.id = acc.length + 1 := parseRow_id hr
      simp [h, hid, List.range'_1_concat, Nat.add_comm]

/-- C3: the records loadProducts accepts carry exactly the ids
`1, 2, …, k` in order, and a rejected row is dropped without consuming an
id, so the sequence never has a gap. -/
theorem c3_dense_ids :
    (∀ text, (loadPure text).map (fun r => r.id) = List.range' 1 (loadPure text).length) ∧
    (∀ line ls acc, parseRow line acc.length = none →
      parseLoop (line :: ls) acc = parseLoop ls acc) := by
  constructor
  · intro text
    simp only [loadPure]
    split
    · simp
    · split
      · exact parseLoop_ids _ [] (by simp)
      · exact parseLoop_ids _ [] (by simp)
  · intro line ls acc h
    simp only [parseLoop, h]

/-- C3 witness: a malformed row (too few columns) is dropped without
consuming an id, and a concrete three-line file with a bad middle row
gets densely numbered output. -/
theorem c3_dense_ids_witness :
    parseLoop ("no-tab-line" :: ["[B]\tx\ti"]) [] = parseLoop ["[B]\tx\ti"] [] ∧
    (loadPure "[A]\tx\ti1\nbad row\n[B]\tx\ti2").map (fun r => r.id) =
      List.range' 1 (loadPure "[A]\tx\ti1\nbad row\n[B]\tx\ti2").length :=
  ⟨c3_dense_ids.2 "no-tab-line" ["[B]\tx\ti"] [] (by decide), c3_dense_ids.1 _⟩

/-- C9: the stored category of every accepted row is the first
percent-delimited segment of the trimmed first column, trimmed and
lowercased (empty when the segment is absent), and the rendered card
displays it with the first character uppercased: `%Electronics%` is
stored as `electronics` and displayed as `Electronics`. -/
theorem c9_category_pipeline :
    (∀ line idx r, parseRow line idx = some r →
      r.category = jsToLower (jsTrim
        ⟨(firstDelim '%' '%' (jsTrim ((splitOnChar '\t' line).getD 0 "")).data).getD []⟩)) ∧
    (∀ r, (createCard r).categoryLabel = capitalize r.category) ∧
    (parseRow "[Widget](https://shop.example.com/w)\x7b$5\x7d%Electronics%\tcol2\timg.png" 0).map
      (fun r => r.category) = some "electronics" ∧
    capitalize "electronics" = "Electronics" := by
  refine ⟨?_, fun r => rfl, by decide, by decide⟩
  intro line idx r h
  simp only [parseRow] at h
  split at h
  · exact absurd h (by simp)
  · split at h
    · exact absurd h (by simp)
    · rw [Option.some.injEq] at h
      subst h
      rfl

/-- C9 witness: the category rule applied to the concrete catalog row
with `%Electronics%`. -/
theorem c9_category_pipeline_witness :
    ({ id := 1, name := "Widget", link := "https://shop.example.com/w?ref=100201678",
       price := "$5.00", category := "electronics", image := "img.png" } : Record).category =
      jsToLower (jsTrim ⟨(firstDelim '%' '%' (jsTrim ((splitOnChar '\t'
        "[Widget](https://shop.example.com/w)\x7b$5\x7d%Electronics%\tcol2\timg.png").getD 0
        "")).data).getD []⟩) :=
  c9_category_pipeline.1 "[Widget](https://shop.example.com/w)\x7b$5\x7d%Electronics%\tcol2\timg.png"
    0 _ (by decide)

theorem renderMore_progress (st : RState) (g : List Card) (f : Option String)
    (hg : st.grid = some g) (hf : st.footer = some f)
    (hr : st.rendered < st.products.length) :
    renderMore st = .ok { st with
      rendered := min (st.rendered + 24) st.products.length
      grid := some (g ++ ((st.products.drop st.rendered).take
        (min (st.rendered + 24) st.products.length - st.rendered)).map createCard)
      footer := some (some (footerText (min (st.rendered + 24) st.products.length)
        st.products.length)) } := by
  unfold renderMore
  rw [if_neg (by omega), hg, hf]

theorem renderMore_noop (st : RState) (h : st.products.length ≤ st.rendered) :
    renderMore st = .ok st := by
  unfold renderMore
  rw [if_pos h]

/-- C2: when the grid and footer exist, renderMore appends cards exactly
for the records at indices `[r, min(r+24, N))`, advances the cursor to
that bound and rewrites the footer as "r of N"; it is a no-op when
`r ≥ N` (which subsumes an empty record set).  Over a 50-record catalog
the successive calls render to 24, 48 and 50, and every later call
changes nothing. -/
theorem c2_render_batches :
    (∀ st g f, st.grid = some g → st.footer = some f →
      (st.rendered < st.products.length →
        renderMore st = .ok { st with
          rendered := min (st.rendered + 24) st.products.length
          grid := some (g ++ ((st.products.drop st.rendered).take
            (min (st.rendered + 24) st.products.length - st.rendered)).map createCard)
          footer := some (some (footerText (min (st.rendered + 24) st.products.length)
            st.products.length)) }) ∧
      (st.products.length ≤ st.rendered → renderMore st = .ok st)) ∧
    (renderTimes 1 state50).toOption.map (fun s => (s.rendered, s.footer)) =
      some (24, some (some "Displaying 24 of 50 total items.")) ∧
    (renderTimes 2 state50).toOption.map (fun s => (s.rendered, s.footer)) =
      some (48, some (some "Displaying 48 of 50 total items.")) ∧
    (renderTimes 3 state50).toOption.map (fun s => (s.rendered, s.footer)) =
      some (50, some (some "Displaying 50 of 50 total items.")) ∧
    (renderTimes 4 state50).toOption = (renderTimes 3 state50).toOption := by
  refine ⟨?_, by decide, by decide, by decide, by decide⟩
  intro st g f hg hf
  exact ⟨renderMore_progress st g f hg hf, renderMore_noop st⟩

/-- C2 witness: the first batch over the 50-record catalog. -/
theorem c2_render_batches_witness :
    renderMore state50 = .ok { state50 with
      rendered := min (state50.rendered + 24) state50.products.length
      grid := some ([] ++ ((state50.products.drop state50.rendered).take
        (min (state50.rendered + 24) state50.products.length - state50.rendered)).map createCard)
      footer := some (some (footerText (min (state50.rendered + 24) state50.products.length)
        state50.products.length)) } :=
  (c2_render_batches.1 state50 [] none rfl rfl).1 (by decide)

theorem renderMore_facts {st st' : RState} (h : renderMore st = .ok st') :
    st.rendered ≤ st'.rendered ∧
    st'.rendered ≤ max st.rendered st.products.length ∧
    st'.initialized = st.initialized ∧
    st'.products = st.products ∧
    st'.dataViewPresent = st.dataViewPresent ∧
    st'.dataViewHidden = st.dataViewHidden ∧
    st'.pendingInit = st.pendingInit ∧
    st'.grid.isSome = st.grid.isSome ∧
    st'.footer.isSome = st.footer.isSome ∧
    (∀ g, st.grid = some g → ∃ t, st'.grid = some (g ++ t)) := by
  unfold renderMore at h
  split at h
  · rename_i hle
    cases h
    exact ⟨Nat.le_refl _, Nat.le_max_left _ _, rfl, rfl, rfl, rfl, rfl, rfl, rfl,
      fun g hg => ⟨[], by simp [hg]⟩⟩
  · rename_i hlt
    split at h
    · exact absurd h (by simp)
    · rename_i g hg
      split at h
      · rename_i f hf
        cases h
        refine ⟨by simp; omega, by simp, rfl, rfl, rfl, rfl, rfl,
          by simp [hg], by simp [hf], ?_⟩
        intro g' hg'
        rw [hg] at hg'
        rw [Option.some.injEq] at hg'
        subst hg'
        exact ⟨_, rfl⟩
      · rename_i hf
        cases h
        refine ⟨by simp; omega, by simp, rfl, rfl, rfl, rfl, rfl,
          by simp [hg], rfl, ?_⟩
        intro g' hg'
        rw [hg] at hg'
        rw [Option.some.injEq] at hg'
        subst hg'
        exact ⟨_, rfl⟩

theorem initDataView_latched {st : RState} (h : st.initialized = true) :
    initDataView st = .ok st := by
  unfold initDataView
  rw [if_pos h]

theorem initDataView_facts {st st' : RState} (h : initDataView st = .ok st') :
    (st.initialized = true → st' = st) ∧
    st.rendered ≤ st'.rendered ∧
    st'.rendered ≤ max st.rendered st.products.length ∧
    st'.products = st.products ∧
    st'.dataViewPresent = st.dataViewPresent ∧
    st'.dataViewHidden = st.dataViewHidden ∧
    st'.pendingInit = st.pendingInit ∧
    (st.initialized = true → st'.initialized = true) ∧
    (st'.initialized = true → st.initialized = true ∨
      (st.dataViewPresent = true ∧ st'.grid.isSome = true ∧ st'.footer.isSome = true)) := by
  unfold initDataView at h
  split at h
  · rename_i hi
    cases h
    exact ⟨fun _ => rfl, Nat.le_refl _, Nat.le_max_left _ _, rfl, rfl, rfl, rfl,
      fun h => h, fun _ => Or.inl hi⟩
  · rename_i hi
    split at h
    · cases h
      exact ⟨fun hc => absurd hc hi, Nat.le_refl _, Nat.le_max_left _ _, rfl, rfl, rfl, rfl,
        fun h => h, fun hinit => Or.inl hinit⟩
    · rename_i hpres
      have hpres' : st.dataViewPresent = true := by
        revert hpres; cases st.dataViewPresent <;> simp
      split at h
      · rename_i st2 hrm
        cases h
        obtain ⟨h1, h2, h3, h4, h5, h6, h7, h8, h9, _⟩ := renderMore_facts hrm
        exact ⟨fun hc => absurd hc hi, h1, h2, h4, h5, h6, h7, fun _ => rfl,
          fun _ => Or.inr ⟨hpres', h8, h9⟩⟩
      · rename_i e hrm
        exact absurd h (by simp)

/-- C6: every event step is monotone in the latch and the cursor: once
`initialized` is set it stays set, the cursor never rewinds and never
passes the (possibly freshly loaded) record count, re-running
initDataView on an initialized state is an exact no-op (nothing cleared,
nothing re-rendered), the latch is crossed only by a successful
activation (container present, grid and footer set up), and an
initialized grid only ever grows by appended cards. -/
theorem c6_one_way_latch :
    ∀ ev st st', step ev st = .ok st' →
      (st.initialized = true → st'.initialized = true) ∧
      st.rendered ≤ st'.rendered ∧
      st'.rendered ≤ max st.rendered st'.products.length ∧
      (st.initialized = true → initDataView st = .ok st) ∧
      (st.initialized = false → st'.initialized = true →
        st.dataViewPresent = true ∧ st'.grid.isSome = true ∧ st'.footer.isSome = true) ∧
      (st.initialized = true → ∀ g, st.grid = some g → ∃ t, st'.grid = some (g ++ t)) := by
  intro ev st st' h
  cases ev with
  | navigate pg hid =>
    simp only [step, navigateStep] at h
    split at h <;>
      (cases h
       exact ⟨fun hi => hi, Nat.le_refl _, Nat.le_max_left _ _, initDataView_latched,
         fun h0 h1 => absurd h1 (by simp [h0]), fun _ g hg => ⟨[], by simp [hg]⟩⟩)
  | timerFire =>
    simp only [step, timerStep] at h
    split at h
    · obtain ⟨hid0, h1, h2, h4, h5, h6, h7, h8, h9⟩ := initDataView_facts h
      refine ⟨?_, h1, by rw [h4]; exact h2, initDataView_latched, ?_, ?_⟩
      · exact fun hi => h8 hi
      · intro h0 hinit
        rcases h9 hinit with hcase | ⟨ha, hb, hc⟩
        · exact absurd (by simpa using hcase) (by simp [h0])
        · exact ⟨by simpa using ha, hb, hc⟩
      · intro hi g hg
        have := hid0 (by simpa using hi)
        rw [this]
        exact ⟨[], by simp [hg]⟩
    · cases h
      exact ⟨fun hi => hi, Nat.le_refl _, Nat.le_max_left _ _, initDataView_latched,
        fun h0 h1 => absurd h1 (by simp [h0]), fun _ g hg => ⟨[], by simp [hg]⟩⟩
  | scroll near =>
    simp only [step, onScroll] at h
    have trivialFacts : st' = st →
        (st.initialized = true → st'.initialized = true) ∧
        st.rendered ≤ st'.rendered ∧
        st'.rendered ≤ max st.rendered st'.products.length ∧
        (st.initialized = true → initDataView st = .ok st) ∧
        (st.initialized = false → st'.initialized = true →
          st.dataViewPresent = true ∧ st'.grid.isSome = true ∧ st'.footer.isSome = true) ∧
        (st.initialized = true → ∀ g, st.grid = some g → ∃ t, st'.grid = some (g ++ t)) := by
      rintro rfl
      exact ⟨fun hi => hi, Nat.le_refl _, Nat.le_max_left _ _, initDataView_latched,
        fun h0 h1 => absurd h1 (by simp [h0]), fun _ g hg => ⟨[], by simp [hg]⟩⟩
    split at h
    · exact trivialFacts (by cases h; rfl)
    · split at h
      · exact trivialFacts (by cases h; rfl)
      · split at h
        · obtain ⟨h1, h2, h3, h4, h5, h6, h7, h8, h9, h10⟩ := renderMore_facts h
          exact ⟨fun hi => h3 ▸ hi, h1, by rw [h4]; exact h2, initDataView_latched,
            fun h0 hinit => absurd (h3 ▸ hinit) (by simp [h0]), fun _ => h10⟩
        · exact trivialFacts (by cases h; rfl)
  | loadFinish oc =>
    simp only [step, loadStep] at h
    split at h
    · obtain ⟨hid0, h1, h2, h4, h5, h6, h7, h8, h9⟩ := initDataView_facts h
      refine ⟨fun hi => h8 hi, h1, ?_, initDataView_latched, ?_, ?_⟩
      · calc st'.rendered ≤ max st.rendered _ := h2
          _ = max st.rendered st'.products.length := by rw [h4]
      · intro h0 hinit
        rcases h9 hinit with hcase | ⟨ha, hb, hc⟩
        · exact absurd (by simpa using hcase) (by simp [h0])
        · exact ⟨by simpa using ha, hb, hc⟩
      · intro hi g hg
        have := hid0 (by simpa using hi)
        rw [this]
        exact ⟨[], by simp [hg]⟩
    · cases h
      exact ⟨fun hi => hi, Nat.le_refl _, Nat.le_max_left _ _, initDataView_latched,
        fun h0 h1 => absurd h1 (by simp [h0]), fun _ g hg => ⟨[], by simp [hg]⟩⟩

/-- C6 witness: a navigation away from the data view leaves an
initialized 50-record renderer latched, and initDataView on it is a
no-op. -/
theorem c6_one_way_latch_witness :
    initDataView state50 = .ok state50 :=
  (c6_one_way_latch (.navigate "x" true) state50 { state50 with dataViewHidden := true }
    (by rfl)).2.2.2.1 rfl

theorem initDataView_on_empty (st : RState) (hinv : emptyCatalogInv st) :
    ∃ st', initDataView st = .ok st' ∧ emptyCatalogInv st' := by
  obtain ⟨hp, hr, hg, hf⟩ := hinv
  unfold initDataView
  split
  · exact ⟨st, rfl, hp, hr, hg, hf⟩
  · split
    · exact ⟨st, rfl, hp, hr, hg, hf⟩
    · rw [renderMore_noop _ (by simp [hp])]
      refine ⟨_, rfl, hp, hr, Or.inr rfl, Or.inr rfl⟩

theorem nonload_preserves_empty (ev : Ev) (st : RState) (hinv : emptyCatalogInv st)
    (hev : ∀ oc, ev ≠ .loadFinish oc) :
    ∃ st', step ev st = .ok st' ∧ emptyCatalogInv st' := by
  obtain ⟨hp, hr, hg, hf⟩ := hinv
  cases ev with
  | navigate pg hid =>
    simp only [step, navigateStep]
    split
    · exact ⟨_, rfl, hp, hr, hg, hf⟩
    · exact ⟨_, rfl, hp, hr, hg, hf⟩
  | timerFire =>
    simp only [step, timerStep]
    split
    · exact initDataView_on_empty _ ⟨hp, hr, hg, hf⟩
    · exact ⟨st, rfl, hp, hr, hg, hf⟩
  | scroll near =>
    simp only [step, onScroll]
    split
    · exact ⟨st, rfl, hp, hr, hg, hf⟩
    · split
      · exact ⟨st, rfl, hp, hr, hg, hf⟩
      · split
        · rw [renderMore_noop _ (by simp [hp, hr])]
          exact ⟨st, rfl, hp, hr, hg, hf⟩
        · exact ⟨st, rfl, hp, hr, hg, hf⟩
  | loadFinish oc => exact absurd rfl (hev oc)

theorem run_preserves_empty (evs : List Ev) :
    ∀ st, emptyCatalogInv st → (∀ ev ∈ evs, ∀ oc, ev ≠ Ev.loadFinish oc) →
    ∃ st', run evs st = .ok st' ∧ emptyCatalogInv st' := by
  induction evs with
  | nil => exact fun st hinv _ => ⟨st, rfl, hinv⟩
  | cons ev evs ih =>
    intro st hinv hevs
    obtain ⟨st1, hstep, hinv1⟩ := nonload_preserves_empty ev st hinv (hevs ev (by simp))
    obtain ⟨st', hrun, hinv'⟩ := ih st1 hinv1 (fun e he oc => hevs e (by simp [he]) oc)
    refine ⟨st', ?_, hinv'⟩
    simp only [run, hstep, hrun]

theorem loadStep_failure (oc : FetchOutcome) (st : RState)
    (hfail : loadProducts oc = .error ()) (hpre : preLoadInv st) :
    ∃ st', loadStep oc st = .ok st' ∧ emptyCatalogInv st' := by
  obtain ⟨hr, hg, hf⟩ := hpre
  simp only [loadStep, hfail]
  split
  · exact initDataView_on_empty _ ⟨rfl, hr, hg, hf⟩
  · exact ⟨_, rfl, rfl, hr, hg, hf⟩

/-- C7: a non-success response or a transport error makes loadProducts
propagate an error; the load handler catches it and substitutes the
empty record sequence, and from such a state every later sequence of
navigation, timer and scroll events runs without an exception, renders
zero cards, and never writes the footer status line. -/
theorem c7_fetch_failure :
    (∀ body, loadProducts (.response false body) = .error ()) ∧
    loadProducts .transportErr = .error () ∧
    (∀ oc st, loadProducts oc = .error () → preLoadInv st →
      ∃ st', loadStep oc st = .ok st' ∧ emptyCatalogInv st') ∧
    (∀ evs st, emptyCatalogInv st → (∀ ev ∈ evs, ∀ oc, ev ≠ Ev.loadFinish oc) →
      ∃ st', run evs st = .ok st' ∧ emptyCatalogInv st') :=
  ⟨fun _ => rfl, rfl, loadStep_failure, fun evs st hinv hevs => run_preserves_empty evs st hinv hevs⟩

/-- C7 witness: a concrete failed fetch at page load, then a navigation,
the delayed initialization and a scroll, all surviving with an empty
catalog and an untouched footer. -/
theorem c7_fetch_failure_witness :
    (∃ st', loadStep (.response false "nope") initialState = .ok st' ∧ emptyCatalogInv st') ∧
    (∃ st', run [.navigate "data" false, .timerFire, .scroll true] initialState = .ok st' ∧
      emptyCatalogInv st') :=
  ⟨c7_fetch_failure.2.2.1 (.response false "nope") initialState
      (c7_fetch_failure.1 "nope") (by refine ⟨rfl, Or.inl rfl, Or.inl rfl⟩),
    c7_fetch_failure.2.2.2 [.navigate "data" false, .timerFire, .scroll true] initialState
      ⟨rfl, rfl, Or.inl rfl, Or.inl rfl⟩ (by intro ev he oc; fin_cases he <;> simp)⟩

/-- C10: renderMore guards only on the record set, not on initialization:
whenever records are loaded and non-empty, the data view is present and
visible, but the delayed initDataView has not run (the grid variable is
still undefined), a qualifying scroll crashes; and that state is reached
from page load by a successful fetch, a navigation to the data view, and
a scroll that beats the 50 ms initialization timer. -/
theorem c10_uninitialized_scroll_crash :
    (∀ st, st.grid = none → st.rendered < st.products.length →
      st.dataViewPresent = true → st.dataViewHidden = false →
      step (.scroll true) st = .error ()) ∧
    (run [.loadFinish (.response true "[A]\tx\timg"), .navigate "data" false, .scroll true]
      initialState).toOption = none := by
  constructor
  · intro st hg hr hpres hhid
    have hnle : ¬ st.products.length ≤ st.rendered := by omega
    simp [step, onScroll, renderMore, hpres, hhid, hg, hnle]
  · decide

/-- C10 witness: the crash at a concrete reachable state with one loaded
record, a visible data view and an undefined grid. -/
theorem c10_uninitialized_scroll_crash_witness :
    step (.scroll true)
      { initialState with products := [demoRecord 0], dataViewHidden := false } = .error () :=
  c10_uninitialized_scroll_crash.1
    { initialState with products := [demoRecord 0], dataViewHidden := false }
    rfl (by decide) rfl rfl

theorem splitRNAux_cons_other {c : Char} (l acc : List Char) (h1 : c ≠ '\n') (h2 : c ≠ '\r') :
    splitRNAux (c :: l) acc = splitRNAux l (c :: acc) := by
  rw [splitRNAux.eq_def]
  split <;> simp_all

theorem splitRNAux_sep (b : List Char) :
    ∀ (cs acc : List Char), (∀ c ∈ cs, c ≠ '\n' ∧ c ≠ '\r') →
      splitRNAux (cs ++ '\n' :: b) acc = ⟨acc.reverse ++ cs⟩ :: splitRNAux b [] ∧
      splitRNAux (cs ++ '\r' :: '\n' :: b) acc = ⟨acc.reverse ++ cs⟩ :: splitRNAux b [] := by
  intro cs
  induction cs with
  | nil =>
    intro acc _
    exact ⟨by simp [splitRNAux], by simp [splitRNAux]⟩
  | cons c cs ih =>
    intro acc h
    have hc := h c (List.mem_cons_self c cs)
    obtain ⟨ih1, ih2⟩ := ih (c :: acc) (fun x hx => h x (List.mem_cons_of_mem c hx))
    constructor
    · rw [List.cons_append, splitRNAux_cons_other _ _ hc.1 hc.2, ih1]
      simp
    · rw [List.cons_append, splitRNAux_cons_other _ _ hc.1 hc.2, ih2]
      simp

/-- C8: the loader splits the body at bare and carriage-return-prefixed
newlines, discards blank lines, and skips the first remaining line as a
header exactly when that line does not begin with an opening bracket
optionally preceded by whitespace. -/
theorem c8_header_detection :
    (∀ a b : String, (∀ c ∈ a.data, c ≠ '\n' ∧ c ≠ '\r') →
      jsSplitRN (a ++ "\n" ++ b) = a :: jsSplitRN b ∧
      jsSplitRN (a ++ "\r\n" ++ b) = a :: jsSplitRN b) ∧
    (∀ text first rest, (jsSplitRN text).filter (fun l => l ≠ "") = first :: rest →
      (startsWithBracket first = true → loadPure text = parseLoop (first :: rest) []) ∧
      (startsWithBracket first = false → loadPure text = parseLoop rest [])) := by
  constructor
  · intro a b h
    have key := splitRNAux_sep b.data a.data [] h
    constructor
    · have hdata : (a ++ "\n" ++ b).data = a.data ++ '\n' :: b.data := by
        simp [String.data_append]
      unfold jsSplitRN
      rw [hdata, key.1]
      rfl
    · have hdata : (a ++ "\r\n" ++ b).data = a.data ++ '\r' :: '\n' :: b.data := by
        simp [String.data_append]
      unfold jsSplitRN
      rw [hdata, key.2]
      rfl
  · intro text first rest h
    constructor
    · intro hb
      simp only [loadPure]
      rw [h]
      simp [hb]
    · intro hb
      simp only [loadPure]
      rw [h]
      simp [hb]

/-- C8 witness: a concrete body whose first line is a header (no leading
bracket) is split at the newline and the header line is skipped. -/
theorem c8_header_detection_witness :
    jsSplitRN ("hdr" ++ "\n" ++ "[A]\tx\ti") = "hdr" :: jsSplitRN "[A]\tx\ti" ∧
    loadPure "hdr\n[A]\tx\ti" = parseLoop ["[A]\tx\ti"] [] :=
  ⟨(c8_header_detection.1 "hdr" "[A]\tx\ti" (by decide)).1,
   (c8_header_detection.2 "hdr\n[A]\tx\ti" "hdr" ["[A]\tx\ti"] (by decide)).2 (by decide)⟩

theorem removeKey_filter (k k' : String) (h : k' ≠ k) :
    ∀ ps : List (String × String),
      (removeKey ps k).filter (fun p => p.1 == k') = ps.filter (fun p => p.1 == k') := by
  intro ps
  induction ps with
  | nil => rfl
  | cons p ps ih =>
    simp only [removeKey]
    by_cases hp : p.1 = k
    · rw [if_pos hp, ih, List.filter_cons]
      have : (p.1 == k') = false := by simp [hp, Ne.symm h]
      simp [this]
    · rw [if_neg hp, List.filter_cons, List.filter_cons, ih]

theorem setParam_getParam (k v : String) :
    ∀ ps : List (String × String), getParam (setParam ps k v) k = some v := by
  intro ps
  induction ps with
  | nil => simp [setParam, getParam, List.find?]
  | cons p ps ih =>
    simp only [setParam]
    by_cases hp : p.1 = k
    · rw [if_pos hp]
      simp [getParam, List.find?]
    · rw [if_neg hp]
      have hb : (p.1 == k) = false := by simp [hp]
      simpa [getParam, List.find?, hb] using ih

theorem setParam_preserves (k v k' : String) (h : k' ≠ k) :
    ∀ ps : List (String × String),
      (setParam ps k v).filter (fun p => p.1 == k') = ps.filter (fun p => p.1 == k') := by
  intro ps
  induction ps with
  | nil =>
    simp [setParam, List.filter_cons, Ne.symm h]
  | cons p ps ih =>
    simp only [setParam]
    by_cases hp : p.1 = k
    · rw [if_pos hp, List.filter_cons, List.filter_cons]
      have h1 : ((k, v).1 == k') = false := by simp [Ne.symm h]
      have h2 : (p.1 == k') = false := by simp [hp, Ne.symm h]
      simp [h1, h2, removeKey_filter k k' h]
    · rw [if_neg hp, List.filter_cons, List.filter_cons, ih]

/-- C4: on a link the model's URL parser accepts, updateRef serializes
the parsed URL back with its `ref` parameter forced to `100201678`
(overwritten if present, appended if absent) and every other parameter
kept; on a link the parser rejects, the string passes through unchanged
and no error is raised. -/
theorem c4_ref_rewrite :
    (∀ s u, parseURL s = some u →
      updateRef s = serializeURL { u with params := setParam u.params "ref" "100201678" } ∧
      getParam (setParam u.params "ref" "100201678") "ref" = some "100201678" ∧
      ∀ k, k ≠ "ref" →
        (setParam u.params "ref" "100201678").filter (fun p => p.1 == k) =
          u.params.filter (fun p => p.1 == k)) ∧
    (∀ s, parseURL s = none → updateRef s = s) ∧
    updateRef "https://x.com/p?ref=OLD&x=1" = "https://x.com/p?ref=100201678&x=1" ∧
    updateRef "not a url" = "not a url" := by
  refine ⟨?_, ?_, by decide, by decide⟩
  · intro s u h
    exact ⟨by simp [updateRef, h], setParam_getParam _ _ _,
      fun k hk => setParam_preserves _ _ _ hk _⟩
  · intro s h
    simp [updateRef, h]

/-- C4 witness: the rewrite at the specification's example link. -/
theorem c4_ref_rewrite_witness :
    updateRef "https://x.com/p?ref=OLD&x=1" =
      serializeURL
        ⟨"https", "x.com", "/p", setParam [("ref", "OLD"), ("x", "1")] "ref" "100201678",
          none⟩ :=
  (c4_ref_rewrite.1 "https://x.com/p?ref=OLD&x=1"
    ⟨"https", "x.com", "/p", [("ref", "OLD"), ("x", "1")], none⟩ (by decide)).1

end DataViewRender
